import Mathlib

/-!
Verification development for the timingservice repository: a shallow
embedding, over the rationals, of the state-vector algebra
(src/StateVector.js, MediaStateVector), the Interval membership test
(src/Interval.js), the local timing provider update (src/LocalTimingProvider.js
together with the MediaStateVector constructor defaults), the socket server's
message and close handlers (src/server.js), the client-side
SocketTimingProvider change/update handling (final version), and the
SocketSyncClock initialization phase (src/SocketSyncClock.js).

Numbers are modelled as rationals. Times are carried explicitly: every
handler takes the current clock reading as a parameter, mirroring the
single `Date.now()` reading the corresponding JavaScript handler performs.
-/

namespace Timing

/-! ## StateVector (src/StateVector.js, and the MediaStateVector variants) -/

/-- A state vector describes uni-dimensional motion: position, velocity,
acceleration, evaluated at some timestamp. -/
structure StateVector where
  position : ℚ
  velocity : ℚ
  acceleration : ℚ
  timestamp : ℚ
deriving DecidableEq, Repr

/-- StateVector.prototype.computePosition: p + v·elapsed + ½·a·elapsed². -/
def StateVector.computePosition (v : StateVector) (timestamp : ℚ) : ℚ :=
  let elapsed := timestamp - v.timestamp
  v.position + v.velocity * elapsed + 1/2 * v.acceleration * elapsed * elapsed

/-- StateVector.prototype.computeVelocity: v + a·elapsed. -/
def StateVector.computeVelocity (v : StateVector) (timestamp : ℚ) : ℚ :=
  let elapsed := timestamp - v.timestamp
  v.velocity + v.acceleration * elapsed

/-- StateVector.prototype.computeAcceleration: returns the acceleration,
unaffected by time. -/
def StateVector.computeAcceleration (v : StateVector) (_timestamp : ℚ) : ℚ :=
  v.acceleration

/-- StateVector.prototype.compareTo: evaluate the other vector at this
vector's timestamp, then compare position, velocity, acceleration in order. -/
def StateVector.compareTo (a b : StateVector) : Int :=
  let p := b.computePosition a.timestamp
  if a.position < p then -1
  else if a.position > p then 1
  else
    let v := b.computeVelocity a.timestamp
    if a.velocity < v then -1
    else if a.velocity > v then 1
    else
      let acc := b.computeAcceleration a.timestamp
      if a.acceleration < acc then -1
      else if a.acceleration > acc then 1
      else 0

/-! ## JavaScript value helpers (src/utils.js and JSON field handling)

A numeric field of a JSON message is either absent from the message
(JavaScript `undefined` after parsing), an explicit `null`, or a number. -/

/-- A numeric field of a parsed JSON object: absent, null, or a number. -/
inductive JField where
  | absent : JField
  | null : JField
  | num : ℚ → JField
deriving DecidableEq, Repr

/-- utils.isNull: strict comparison with null (`obj === null`); absent
(undefined) is NOT null. -/
def isNull : JField → Bool
  | JField.null => true
  | _ => false

/-- The `value || 0.0` defaulting applied by the StateVector and
MediaStateVector constructors to each field: absent and null (and 0,
which is falsy but already equal to the default) all yield 0. -/
def jsOr0 : JField → ℚ
  | JField.num x => x
  | _ => 0

/-! ## LocalTimingProvider.prototype.update (src/LocalTimingProvider.js)

The update picks, for each field, the extrapolated current value when the
field is strictly null, and the raw field otherwise; the chosen values then
pass through the state-vector constructor defaults (`|| 0.0`), so an absent
field ends up as 0. The new vector is stamped with the current time.
The assignment `this.vector = ...` goes through the AbstractTimingProvider
vector setter, which dispatches a "change" event when the previous vector
compares different (compareTo ≠ 0); update then dispatches a second,
unconditional "change" event carrying the same vector. -/

/-- One field of LocalTimingProvider.update: `isNull(field) ?
current extrapolated : field`, then the constructor default `|| 0.0`. -/
def updField (current : ℚ) (f : JField) : ℚ :=
  if isNull f then current else jsOr0 f

/-- LocalTimingProvider.prototype.update: returns the new stored vector and
the ordered list of "change" event payloads dispatched (the vector-setter
event when compareTo differs, then the unconditional explicit event). -/
def localUpdate (cur : StateVector) (p v a : JField) (now : ℚ) :
    StateVector × List StateVector :=
  let newV : StateVector :=
    { position := updField (cur.computePosition now) p
      velocity := updField (cur.computeVelocity now) v
      acceleration := updField (cur.computeAcceleration now) a
      timestamp := now }
  let setterEvents := if cur.compareTo newV = 0 then [] else [newV]
  (newV, setterEvents ++ [newV])

/-! ## Interval (src/Interval.js) -/

/-- The range argument of the Interval constructor. An absent bound is
`none`; `lowInclude`/`highInclude` are booleans (absent means false). -/
structure IntervalRange where
  low : Option ℚ
  lowInclude : Bool
  high : Option ℚ
  highInclude : Bool
deriving DecidableEq, Repr

/-- An Interval as stored after construction. -/
structure Interval where
  low : Option ℚ
  lowInclude : Bool
  high : Option ℚ
  highInclude : Bool
deriving DecidableEq, Repr

/-- The Interval constructor: copies the bounds and, when both bounds are
numbers with low > high, swaps them together with their inclusivity flags. -/
def intervalNew (r : IntervalRange) : Interval :=
  match r.low, r.high with
  | some lo, some hi =>
      if lo > hi then
        { low := some hi, lowInclude := r.highInclude
          high := some lo, highInclude := r.lowInclude }
      else
        { low := r.low, lowInclude := r.lowInclude
          high := r.high, highInclude := r.highInclude }
  | _, _ =>
      { low := r.low, lowInclude := r.lowInclude
        high := r.high, highInclude := r.highInclude }

/-- JavaScript truthiness of a possibly-absent number: undefined and 0 are
falsy, every other number is truthy. -/
def jsTruthy : Option ℚ → Bool
  | none => false
  | some x => x ≠ 0

/-- JavaScript `bound < value` where bound may be undefined (a comparison
with undefined is false). -/
def optLt (o : Option ℚ) (value : ℚ) : Bool :=
  match o with
  | none => false
  | some x => x < value

/-- JavaScript `bound > value` where bound may be undefined. -/
def optGt (o : Option ℚ) (value : ℚ) : Bool :=
  match o with
  | none => false
  | some x => x > value

/-- JavaScript `bound === value` where bound may be undefined. -/
def optEq (o : Option ℚ) (value : ℚ) : Bool :=
  match o with
  | none => false
  | some x => x = value

/-- Interval.prototype.covers, as written in the source: the `!this.low` and
`!this.high` tests use JavaScript truthiness, so a bound equal to 0 is
treated like an absent bound. -/
def Interval.covers (i : Interval) (value : ℚ) : Bool :=
  (!(jsTruthy i.low) || optLt i.low value || (optEq i.low value && i.lowInclude)) &&
  (!(jsTruthy i.high) || optGt i.high value || (optEq i.high value && i.highInclude))

/-- Membership as the specification describes it: x lies within the bounds,
strictly between them or equal to a bound marked inclusive, with an absent
bound meaning unbounded on that side; a present bound equal to 0 still
constrains x. Stated here only for comparison with Interval.covers. -/
def coversSpec (i : Interval) (value : ℚ) : Bool :=
  (match i.low with
   | none => true
   | some lo => (lo < value) || (lo = value && i.lowInclude)) &&
  (match i.high with
   | none => true
   | some hi => (value < hi) || (hi = value && i.highInclude))

/-! ## The timing server (src/server.js)

A channel handle stands for an accepted WebSocket connection. The server
state carries the global `connections` array, the `timingAndConnections`
map from timing-object id to its per-object connection list and stored
vector, and the process-wide `delta`. -/

/-- A channel handle (an accepted connection). -/
abbrev Channel := Nat

/-- One entry of timingAndConnections: the timing object's current vector
and the list of connections registered for it through "info" requests. -/
structure ServerTiming where
  connections : List Channel
  vector : StateVector
deriving DecidableEq, Repr

/-- The server's mutable state. -/
structure ServerState where
  connections : List Channel
  timings : List (String × ServerTiming)
  delta : ℚ
deriving DecidableEq, Repr

/-- Lookup of `timingAndConnections[id]` (first entry with the given id). -/
def lookupTiming : List (String × ServerTiming) → String → Option ServerTiming
  | [], _ => none
  | p :: rest, id => if p.1 = id then some p.2 else lookupTiming rest id

/-- Assignment `timingAndConnections[id] = t`: replaces the entry when the
id is present, appends it otherwise. -/
def setTiming (ts : List (String × ServerTiming)) (id : String) (t : ServerTiming) :
    List (String × ServerTiming) :=
  match lookupTiming ts id with
  | some _ => ts.map (fun p => if p.1 = id then (id, t) else p)
  | none => ts ++ [(id, t)]

/-- AbstractTimingProvider.prototype.query: extrapolate the stored vector
to the current time and stamp the result with the current time. -/
def queryVector (v : StateVector) (now : ℚ) : StateVector :=
  { position := v.computePosition now
    velocity := v.computeVelocity now
    acceleration := v.computeAcceleration now
    timestamp := now }

/-- A parsed client-to-server message. -/
inductive ClientMsg where
  | info : String → ClientMsg
  | update : String → JField → JField → JField → ClientMsg
  | sync : String → Option ℚ → ClientMsg
  | other : String → ClientMsg
deriving DecidableEq, Repr

/-- A server-to-client message. -/
inductive ServerMsg where
  | info : String → StateVector → ServerMsg
  | change : String → StateVector → ServerMsg
  | sync : String → Option ℚ → ℚ → ℚ → ℚ → ServerMsg
deriving DecidableEq, Repr

/-- The server's per-connection message listener (src/server.js), for one
parsed utf8 message arriving on channel ch at server time now. Returns the
new server state and the messages sent, in order, each paired with the
channel it is sent on.

"info": looks the id up, creating a fresh timing object (default vector,
stamped now) when unknown, registers the channel in the object's connection
list, and replies on that channel only with the queried vector.

"update": when the id is known, runs the timing object's update; every
"change" event this dispatches is broadcast by getChangeListenerFor to ALL
channels of the global connections array. When the id is unknown the
request is dropped.

"sync": replies on that channel only, echoing client.sent, with
server.received and server.sent both set to now, carrying delta. The
timing map is not touched.

Anything else is dropped. -/
def handleMessage (st : ServerState) (ch : Channel) (msg : ClientMsg) (now : ℚ) :
    ServerState × List (Channel × ServerMsg) :=
  match msg with
  | ClientMsg.info id =>
      let t :=
        match lookupTiming st.timings id with
        | some t => t
        | none =>
            { connections := []
              vector := { position := 0, velocity := 0, acceleration := 0, timestamp := now } }
      let t' := { t with connections := t.connections ++ [ch] }
      ({ st with timings := setTiming st.timings id t' },
       [(ch, ServerMsg.info id (queryVector t'.vector now))])
  | ClientMsg.update id p v a =>
      match lookupTiming st.timings id with
      | some t =>
          let r := localUpdate t.vector p v a now
          ({ st with timings := setTiming st.timings id { t with vector := r.1 } },
           r.2.flatMap (fun vec => st.connections.map (fun c => (c, ServerMsg.change id vec))))
      | none => (st, [])
  | ClientMsg.sync id clientSent =>
      (st, [(ch, ServerMsg.sync id clientSent now now st.delta)])
  | ClientMsg.other _ => (st, [])

/-- The server's per-connection close listener: the channel is removed from
every timing object's connection list (underscore's `without`), but the
global connections array is left untouched. -/
def handleClose (st : ServerState) (ch : Channel) : ServerState :=
  { st with
    timings := st.timings.map
      (fun p => (p.1, { p.2 with connections := p.2.connections.filter (fun c => c ≠ ch) })) }

/-! ## SocketTimingProvider, final version (client side)

The provider's observable state: its readyState, the last vector received
from the server (serverVector), the exposed vector (serverVector translated
into the local clock frame), the queue of future-dated pending changes, and
the owned clock's skew and delta (milliseconds). The constructor `opened`
stands for the source's "open" ready state. -/

/-- The readyState enumeration shared by providers and clocks. -/
inductive ReadyState where
  | connecting : ReadyState
  | opened : ReadyState
  | closing : ReadyState
  | closed : ReadyState
deriving DecidableEq, Repr

/-- Observable state of a SocketTimingProvider and its owned SyncClock. -/
structure ClientState where
  readyState : ReadyState
  serverVector : StateVector
  vector : StateVector
  pendingChanges : List StateVector
  skew : ℚ
  delta : ℚ
deriving DecidableEq, Repr

/-- AbstractSyncClock.prototype.getTime: localTime + skew - delta. -/
def getTime (skew delta t : ℚ) : ℚ :=
  t + skew - delta

/-- The translation of a server-stamped vector's timestamp into the local
clock frame used throughout SocketTimingProvider:
vector.timestamp·1000 + now - clock.getTime(now), in milliseconds. -/
def localTsOf (skew delta : ℚ) (v : StateVector) (now : ℚ) : ℚ :=
  v.timestamp * 1000 + now - getTime skew delta now

/-- The vector exposed after storing a server vector: same motion, with the
timestamp shifted by (now - clock.getTime(now)) / 1000 seconds. -/
def translateVector (skew delta : ℚ) (v : StateVector) (now : ℚ) : StateVector :=
  { position := v.position
    velocity := v.velocity
    acceleration := v.acceleration
    timestamp := v.timestamp + (now - getTime skew delta now) / 1000 }

/-- The serverVector property setter: stores the server vector, updates the
exposed vector through the AbstractTimingProvider vector setter, which
dispatches a "change" event only when the previous exposed vector compares
different (compareTo ≠ 0). Returns the new state and the event payloads. -/
def setServerVector (st : ClientState) (v : StateVector) (now : ℚ) :
    ClientState × List StateVector :=
  let newVec := translateVector st.skew st.delta v now
  let st' := { st with serverVector := v, vector := newVec }
  if st.vector.compareTo newVec = 0 then (st', []) else (st', [newVec])

/-- The while loop inside applyNextPendingChange: starting from the vector
just shifted off the queue, keep shifting entries whose translated local
timestamp is not in the future, retaining only the last one shifted. -/
def drainDue (skew delta now : ℚ) : StateVector → List StateVector →
    StateVector × List StateVector
  | v, [] => (v, [])
  | v, u :: rest =>
      if localTsOf skew delta u now > now then (v, u :: rest)
      else drainDue skew delta now u rest

/-- Length bound for drainDue: the remaining queue never grows. -/
theorem drainDue_snd_length_le (skew delta now : ℚ) :
    ∀ (v : StateVector) (l : List StateVector),
      (drainDue skew delta now v l).2.length ≤ l.length := by
  intro v l
  induction l generalizing v with
  | nil => simp [drainDue]
  | cons u rest ih =>
      by_cases h : localTsOf skew delta u now > now
      · simp [drainDue, h]
      · simpa [drainDue, h] using Nat.le_succ_of_le (ih u)

/-- scheduleNextPendingChange together with applyNextPendingChange, as a
function of the queue being processed: when the queue is empty there is
nothing to schedule; when the head's translated timestamp lies in the
future a timer is armed for it; otherwise the head is shifted, further due
entries are drained (keeping only the latest), the retained vector is
applied through the serverVector setter and the function recurses on the
remaining queue. Returns the final state, the delay of the armed timer if
any, and the "change" event payloads dispatched. -/
def scheduleLoop (now : ℚ) (st : ClientState) : List StateVector →
    ClientState × Option ℚ × List StateVector
  | [] => ({ st with pendingChanges := [] }, none, [])
  | v :: rest =>
      let lts := localTsOf st.skew st.delta v now
      if lts > now then
        ({ st with pendingChanges := v :: rest }, some (lts - now), [])
      else
        let d := drainDue st.skew st.delta now v rest
        let s := setServerVector { st with pendingChanges := d.2 } d.1 now
        let r := scheduleLoop now s.1 d.2
        (r.1, r.2.1, s.2 ++ r.2.2)
termination_by l => l.length
decreasing_by
  simpa using Nat.lt_succ_of_le (drainDue_snd_length_le st.skew st.delta now v rest)

/-- scheduleNextPendingChange on the provider's current queue. -/
def scheduleNextPendingChange (st : ClientState) (now : ℚ) :
    ClientState × Option ℚ × List StateVector :=
  scheduleLoop now st st.pendingChanges

/-- Order of pending changes: ascending server timestamp. -/
def tsLE (a b : StateVector) : Prop :=
  a.timestamp ≤ b.timestamp

instance : DecidableRel tsLE := fun a b =>
  inferInstanceAs (Decidable (a.timestamp ≤ b.timestamp))

instance : IsTotal StateVector tsLE :=
  ⟨fun a b => le_total a.timestamp b.timestamp⟩

instance : IsTrans StateVector tsLE :=
  ⟨fun _ _ _ hab hbc => le_trans hab hbc⟩

/-- The `pendingChanges.sort` call: sort by server timestamp ascending. -/
def sortByTs (l : List StateVector) : List StateVector :=
  List.insertionSort tsLE l

/-- socket.onmessage, "change" case, of the final SocketTimingProvider:
ignored unless readyState is open; ignored when the vector is more ancient
than the current server vector; applied through the serverVector setter
when its translated local timestamp is strictly in the past; otherwise
pushed onto the pending queue, the queue is sorted by server timestamp
ascending and the pending-change scheduler runs. Returns the new state,
the delay of the timer armed by the scheduler if any, and the "change"
event payloads dispatched. -/
def handleChange (st : ClientState) (msgVector : StateVector) (now : ℚ) :
    ClientState × Option ℚ × List StateVector :=
  if st.readyState ≠ ReadyState.opened then (st, none, [])
  else if msgVector.timestamp < st.serverVector.timestamp then (st, none, [])
  else
    let lts := localTsOf st.skew st.delta msgVector now
    if lts < now then
      let s := setServerVector st msgVector now
      (s.1, none, s.2)
    else
      scheduleNextPendingChange
        { st with pendingChanges := sortByTs (st.pendingChanges ++ [msgVector]) } now

/-- The reason carried by the future SocketTimingProvider.update returns
when the provider is not open (the source rejects with an Error explaining
that the underlying socket is not usable). -/
inductive UpdateReason where
  | notOpen : UpdateReason
deriving DecidableEq, Repr

/-- SocketTimingProvider.prototype.update (final version): when readyState
is not open the returned future rejects immediately and nothing is sent on
the channel; otherwise an update message carrying the raw vector fields is
sent and the future resolves with no value. Returns the future's outcome
and the list of messages sent on the channel. -/
def socketUpdate (readyState : ReadyState) (url : String) (p v a : JField) :
    Except UpdateReason Unit × List ClientMsg :=
  if readyState ≠ ReadyState.opened then
    (Except.error UpdateReason.notOpen, [])
  else
    (Except.ok (), [ClientMsg.update url p v a])

/-! ## SocketSyncClock initialization (src/SocketSyncClock.js) -/

/-- Number of exchanges to make with the server to compute the first skew. -/
def initialAttempts : Nat := 10

/-- Minimum roundtrip threshold (in ms). -/
def minRoundtripThreshold : ℚ := 5

/-- The relevant fields of a sync response: client.sent, server.received,
server.sent (milliseconds), and the optional delta. -/
structure SyncMsg where
  clientSent : ℚ
  serverReceived : ℚ
  serverSent : ℚ
  delta : Option ℚ
deriving DecidableEq, Repr

/-- An entry of initialSyncMessages: local receive time, measured round
trip, and the message itself. -/
structure SyncSample where
  received : ℚ
  roundtrip : ℚ
  msg : SyncMsg
deriving DecidableEq, Repr

/-- Observable state of a SocketSyncClock during initialization. -/
structure ClockState where
  readyState : ReadyState
  skew : ℚ
  delta : ℚ
  roundtripMin : ℚ
  roundtripThreshold : ℚ
  initialSyncMessages : List SyncSample
deriving DecidableEq, Repr

/-- Order of sync samples: ascending round trip. -/
def rtLE (a b : SyncSample) : Prop :=
  a.roundtrip ≤ b.roundtrip

instance : DecidableRel rtLE := fun a b =>
  inferInstanceAs (Decidable (a.roundtrip ≤ b.roundtrip))

instance : IsTotal SyncSample rtLE :=
  ⟨fun a b => le_total a.roundtrip b.roundtrip⟩

instance : IsTrans SyncSample rtLE :=
  ⟨fun _ _ _ hab hbc => le_trans hab hbc⟩

/-- The `initialSyncMessages.sort` call: sort by round trip ascending. -/
def sortSamples (l : List SyncSample) : List SyncSample :=
  List.insertionSort rtLE l

/-- The skew computed from one sync response: ((server.sent +
server.received) - (client.sent + received)) / 2, kept at the current skew
when it differs by less than 1 ms and rounded to the nearest millisecond
otherwise (Math.round rounds half toward positive infinity, as Lean's
round does on rationals). -/
def computeSkewValue (m : SyncMsg) (received currentSkew : ℚ) : ℚ :=
  let skew := ((m.serverSent + m.serverReceived) - (m.clientSent + received)) / 2
  if |skew - currentSkew| < 1 then currentSkew else (round skew : ℤ)

/-- The clock's initial-settings computation, run once all initial attempts
have resolved: sort the surviving responses by round trip; use the first
(lowest round trip) for the initial skew, the delta when the server sent
one, and roundtripMin; set roundtripThreshold to the round trip of the
response at index ceil(initialAttempts / 2) - 1, clamped to the last
response when fewer survived and skipped when none did; then raise the
threshold to ceil(1.30 · roundtripMin) when below that, and to
minRoundtripThreshold when still below that; finally open the clock and
clear the stored responses. -/
def clockInit (st : ClockState) : ClockState :=
  let sorted := sortSamples st.initialSyncMessages
  let st1 :=
    match sorted with
    | [] => st
    | s :: _ =>
        { st with
          roundtripMin := s.roundtrip
          delta :=
            match s.msg.delta with
            | some d => d
            | none => st.delta
          skew := computeSkewValue s.msg s.received st.skew }
  let threshold1 :=
    match sorted with
    | [] => st1.roundtripThreshold
    | s :: _ =>
        (sorted.getD (min ((initialAttempts + 1) / 2 - 1) (sorted.length - 1)) s).roundtrip
  let threshold2 :=
    if threshold1 < st1.roundtripMin * (13/10) then
      ((⌈st1.roundtripMin * (13/10)⌉ : ℤ) : ℚ)
    else threshold1
  let threshold3 :=
    if threshold2 < minRoundtripThreshold then minRoundtripThreshold else threshold2
  { st1 with
    roundtripThreshold := threshold3
    readyState := ReadyState.opened
    initialSyncMessages := [] }

/-! ## Concrete states used to evaluate the model -/

/-- A timing-object id. -/
def idX : String := "x"

/-- Another timing-object id. -/
def idY : String := "y"

/-- A websocket url. -/
def urlW : String := "ws"

/-- Server with two accepted channels, channel 1 subscribed to idX. -/
def stC1 : ServerState :=
  { connections := [1, 2]
    timings := [(idX, { connections := [1]
                        vector := { position := 0, velocity := 0, acceleration := 0, timestamp := 0 } })]
    delta := 0 }

/-- Server with channels 7 and 8 both subscribed to idX. -/
def stC2 : ServerState :=
  { connections := [7, 8]
    timings := [(idX, { connections := [7, 8]
                        vector := { position := 0, velocity := 0, acceleration := 0, timestamp := 0 } })]
    delta := 0 }

/-- Server hosting idY with a vector at position 5 and no motion. -/
def stC3 : ServerState :=
  { connections := [3]
    timings := [(idY, { connections := [3]
                        vector := { position := 5, velocity := 0, acceleration := 0, timestamp := 0 } })]
    delta := 0 }

/-- An open client with one future-dated pending change (server timestamp 2,
which translates to local time 2000 ms under zero skew and delta). -/
def stC4 : ClientState :=
  { readyState := ReadyState.opened
    serverVector := { position := 0, velocity := 0, acceleration := 0, timestamp := 0 }
    vector := { position := 0, velocity := 0, acceleration := 0, timestamp := 0 }
    pendingChanges := [{ position := 0, velocity := 0, acceleration := 0, timestamp := 2 }]
    skew := 0
    delta := 0 }

/-- An open client with an empty pending queue. -/
def stC4W : ClientState :=
  { readyState := ReadyState.opened
    serverVector := { position := 0, velocity := 0, acceleration := 0, timestamp := 0 }
    vector := { position := 0, velocity := 0, acceleration := 0, timestamp := 0 }
    pendingChanges := []
    skew := 0
    delta := 0 }

/-- An open client whose current server vector has timestamp 10. -/
def stC5 : ClientState :=
  { readyState := ReadyState.opened
    serverVector := { position := 0, velocity := 0, acceleration := 0, timestamp := 10 }
    vector := { position := 0, velocity := 0, acceleration := 0, timestamp := 10 }
    pendingChanges := []
    skew := 0
    delta := 0 }

/-- A connecting clock holding two survived sync responses (round trips 20
and 10 ms). -/
def stC7W : ClockState :=
  { readyState := ReadyState.connecting
    skew := 0
    delta := 0
    roundtripMin := 1000
    roundtripThreshold := 1000
    initialSyncMessages :=
      [{ received := 40, roundtrip := 20
         msg := { clientSent := 20, serverReceived := 130, serverSent := 130, delta := some 0 } },
       { received := 10, roundtrip := 10
         msg := { clientSent := 0, serverReceived := 105, serverSent := 105, delta := some 0 } }] }

/-! ## Properties stated for the claims -/

/-- What the server's update handling actually does for a known id: the
change messages go to every channel of the global connections array, once
per dispatched change event, and the new vector is stored for the id.
Channels outside the global array receive nothing. -/
def serverUpdateClaim (st : ServerState) (ch : Channel) (id : String)
    (p v a : JField) (now : ℚ) (t : ServerTiming) : Prop :=
  (handleMessage st ch (ClientMsg.update id p v a) now).2 =
    (localUpdate t.vector p v a now).2.flatMap
      (fun vec => st.connections.map (fun c => (c, ServerMsg.change id vec))) ∧
  (∀ c, c ∈ st.connections →
    ∀ vec ∈ (localUpdate t.vector p v a now).2,
      (c, ServerMsg.change id vec) ∈ (handleMessage st ch (ClientMsg.update id p v a) now).2) ∧
  (∀ c m, (c, m) ∈ (handleMessage st ch (ClientMsg.update id p v a) now).2 →
    c ∈ st.connections) ∧
  lookupTiming (handleMessage st ch (ClientMsg.update id p v a) now).1.timings id =
    some { t with vector := (localUpdate t.vector p v a now).1 }

/-- What the server's close handling actually does: the channel disappears
from every timing object's connection list, while the global connections
array and the delta are untouched. -/
def closeClaim (st : ServerState) (ch : Channel) : Prop :=
  (handleClose st ch).connections = st.connections ∧
  (∀ p ∈ (handleClose st ch).timings, ch ∉ p.2.connections) ∧
  (handleClose st ch).delta = st.delta

/-- What the change handler actually does with a fresh message on an open
provider: a message whose translated timestamp is not in the future is
applied at once; a future-dated one is queued, the queue is kept sorted by
server timestamp ascending, and the timer is armed for the earliest entry
of the updated queue (which need not be the new message). -/
def changeClaim (st : ClientState) (v : StateVector) (now : ℚ) : Prop :=
  (localTsOf st.skew st.delta v now ≤ now →
    (handleChange st v now).1.serverVector = v ∧
    (handleChange st v now).1.vector = translateVector st.skew st.delta v now) ∧
  (now < localTsOf st.skew st.delta v now →
    (handleChange st v now).1.pendingChanges = sortByTs (st.pendingChanges ++ [v]) ∧
    List.Sorted tsLE (handleChange st v now).1.pendingChanges ∧
    (handleChange st v now).1.serverVector = st.serverVector ∧
    (handleChange st v now).1.vector = st.vector ∧
    (∃ hd tl, sortByTs (st.pendingChanges ++ [v]) = hd :: tl ∧
      (handleChange st v now).2.1 = some (localTsOf st.skew st.delta hd now - now) ∧
      (∀ u ∈ sortByTs (st.pendingChanges ++ [v]), hd.timestamp ≤ u.timestamp)))

/-- What the clock's initial-settings computation does when at least one
sync response survived: the response with the lowest round trip fixes the
initial skew, the delta and roundtripMin; the threshold starts from the
round trip at index ceil(initialAttempts / 2) - 1 of the sorted list
(clamped to the last survivor), never drops below it, and ends at least
minRoundtripThreshold and at least 1.30 times roundtripMin, being kept
unchanged exactly when it already meets both bounds; the clock opens and
the stored responses are cleared. -/
def clockInitClaim (st : ClockState) : Prop :=
  ∃ s rest, sortSamples st.initialSyncMessages = s :: rest ∧
    (clockInit st).readyState = ReadyState.opened ∧
    (clockInit st).roundtripMin = s.roundtrip ∧
    (∀ u ∈ st.initialSyncMessages, s.roundtrip ≤ u.roundtrip) ∧
    (clockInit st).skew = computeSkewValue s.msg s.received st.skew ∧
    (clockInit st).delta = (match s.msg.delta with | some d => d | none => st.delta) ∧
    minRoundtripThreshold ≤ (clockInit st).roundtripThreshold ∧
    s.roundtrip * (13/10) ≤ (clockInit st).roundtripThreshold ∧
    ((s :: rest).getD (min ((initialAttempts + 1) / 2 - 1) rest.length) s).roundtrip ≤
      (clockInit st).roundtripThreshold ∧
    (max minRoundtripThreshold (s.roundtrip * (13/10)) ≤
        ((s :: rest).getD (min ((initialAttempts + 1) / 2 - 1) rest.length) s).roundtrip →
      (clockInit st).roundtripThreshold =
        ((s :: rest).getD (min ((initialAttempts + 1) / 2 - 1) rest.length) s).roundtrip) ∧
    (clockInit st).initialSyncMessages = []

/-! ## Claim theorems -/

/-- The first component of the serverVector setter ignores the event
dead-band: both branches store the same state. -/
theorem setServerVector_fst (st : ClientState) (v : StateVector) (now : ℚ) :
    (setServerVector st v now).1 =
      { st with serverVector := v, vector := translateVector st.skew st.delta v now } := by
  simp only [setServerVector]
  split <;> rfl

/-- drainDue does not move past a queue whose entries are all in the
future. -/
theorem drainDue_future (skew delta now : ℚ) (v : StateVector) (l : List StateVector)
    (h : ∀ u ∈ l, now < localTsOf skew delta u now) :
    drainDue skew delta now v l = (v, l) := by
  cases l with
  | nil => rfl
  | cons u rest => simp [drainDue, h u (List.mem_cons_self u rest)]

/-- The scheduler on an empty queue: nothing to schedule. -/
theorem scheduleLoop_nil (now : ℚ) (st : ClientState) :
    scheduleLoop now st [] = ({ st with pendingChanges := [] }, none, []) := by
  simp [scheduleLoop]

/-- The scheduler on a queue whose head is future-dated: it arms the timer
for the head and changes nothing else. -/
theorem scheduleLoop_cons_future (now : ℚ) (st : ClientState) (v : StateVector)
    (rest : List StateVector) (h : now < localTsOf st.skew st.delta v now) :
    scheduleLoop now st (v :: rest) =
      ({ st with pendingChanges := v :: rest },
       some (localTsOf st.skew st.delta v now - now), []) := by
  rw [scheduleLoop]
  simp [h]

/-- The scheduler on a queue whose head is due while the rest is
future-dated: the head is applied through the serverVector setter. -/
theorem scheduleLoop_head_due (now : ℚ) (st : ClientState) (v : StateVector)
    (rest : List StateVector) (hv : ¬ now < localTsOf st.skew st.delta v now)
    (hrest : ∀ u ∈ rest, now < localTsOf st.skew st.delta u now) :
    (scheduleLoop now st (v :: rest)).1.serverVector = v ∧
    (scheduleLoop now st (v :: rest)).1.vector = translateVector st.skew st.delta v now := by
  rw [scheduleLoop]
  simp only [if_neg hv, drainDue_future st.skew st.delta now v rest hrest,
    setServerVector_fst]
  cases rest with
  | nil => simp [scheduleLoop_nil]
  | cons u t =>
      rw [scheduleLoop_cons_future now _ u t (by simpa using hrest u (List.mem_cons_self u t))]
      simp

/-- Translated local timestamps are ordered exactly like the underlying
server timestamps. -/
theorem localTsOf_le_iff (skew delta : ℚ) (a b : StateVector) (now : ℚ) :
    localTsOf skew delta a now ≤ localTsOf skew delta b now ↔ a.timestamp ≤ b.timestamp := by
  unfold localTsOf getTime
  constructor <;> intro h <;> nlinarith

/-- The sorted pending queue is a permutation of its input. -/
theorem sortByTs_perm (l : List StateVector) : List.Perm (sortByTs l) l :=
  List.perm_insertionSort tsLE l

/-- The sorted pending queue is sorted by server timestamp. -/
theorem sortByTs_sorted (l : List StateVector) : List.Sorted tsLE (sortByTs l) :=
  List.sorted_insertionSort tsLE l

/-- The change handler on a fresh future-or-present message on an open
provider, when the head of the sorted updated queue is future-dated:
the message is queued and the timer is armed for the head of the queue. -/
theorem handleChange_queued (st : ClientState) (v : StateVector) (now : ℚ)
    (hOpen : st.readyState = ReadyState.opened)
    (hFresh : ¬ v.timestamp < st.serverVector.timestamp)
    (hlts : ¬ localTsOf st.skew st.delta v now < now)
    (hd : StateVector) (tl : List StateVector)
    (hQ : sortByTs (st.pendingChanges ++ [v]) = hd :: tl)
    (hhd : now < localTsOf st.skew st.delta hd now) :
    handleChange st v now =
      ({ st with pendingChanges := hd :: tl },
       some (localTsOf st.skew st.delta hd now - now), []) := by
  have h1 : handleChange st v now =
      scheduleNextPendingChange
        { st with pendingChanges := sortByTs (st.pendingChanges ++ [v]) } now := by
    simp [handleChange, hOpen, hFresh, hlts]
  rw [h1, scheduleNextPendingChange]
  rw [show ({ st with pendingChanges := sortByTs (st.pendingChanges ++ [v]) } :
      ClientState).pendingChanges = hd :: tl from hQ]
  exact scheduleLoop_cons_future now _ hd tl (by simpa using hhd)

/-- Looking a fresh id up after appending it finds the appended entry. -/
theorem lookupTiming_append_self (ts : List (String × ServerTiming)) (id : String)
    (t : ServerTiming) (h : lookupTiming ts id = none) :
    lookupTiming (ts ++ [(id, t)]) id = some t := by
  induction ts with
  | nil => simp [lookupTiming]
  | cons p rest ih =>
      by_cases hp : p.1 = id
      · simp [lookupTiming, hp] at h
      · have h' : lookupTiming rest id = none := by
          simpa [lookupTiming, hp] using h
        simpa [lookupTiming, hp] using ih h'

/-- Replacing the entry of a present id makes lookup find the new value. -/
theorem lookupTiming_map_replace (ts : List (String × ServerTiming)) (id : String)
    (t u : ServerTiming) (h : lookupTiming ts id = some u) :
    lookupTiming (ts.map (fun p => if p.1 = id then (id, t) else p)) id = some t := by
  induction ts with
  | nil => simp [lookupTiming] at h
  | cons p rest ih =>
      by_cases hp : p.1 = id
      · simp [lookupTiming, hp]
      · have h' : lookupTiming rest id = some u := by
          simpa [lookupTiming, hp] using h
        simpa [lookupTiming, hp] using ih h'

/-- Lookup after assignment finds the assigned value. -/
theorem lookupTiming_setTiming (ts : List (String × ServerTiming)) (id : String)
    (t : ServerTiming) :
    lookupTiming (setTiming ts id t) id = some t := by
  cases hl : lookupTiming ts id with
  | none =>
      rw [setTiming, hl]
      exact lookupTiming_append_self ts id t hl
  | some u =>
      rw [setTiming, hl]
      exact lookupTiming_map_replace ts id t u hl

/-- C1 (amended): when an update names a known timing object, the server
applies the update, producing a new vector stamped with the server clock,
and broadcasts the resulting change message to every channel of the global
connections array — not only to the subscribers of the id — once per
dispatched change event (the provider dispatches two events when the new
vector differs from the previous one under compareTo); channels outside
the global array receive nothing. -/
theorem server_update_broadcast (st : ServerState) (ch : Channel) (id : String)
    (p v a : JField) (now : ℚ) (t : ServerTiming)
    (h : lookupTiming st.timings id = some t) :
    serverUpdateClaim st ch id p v a now t := by
  have hout :
      (handleMessage st ch (ClientMsg.update id p v a) now).2 =
        (localUpdate t.vector p v a now).2.flatMap
          (fun vec => st.connections.map (fun c => (c, ServerMsg.change id vec))) := by
    simp [handleMessage, h]
  have hst :
      (handleMessage st ch (ClientMsg.update id p v a) now).1.timings =
        setTiming st.timings id { t with vector := (localUpdate t.vector p v a now).1 } := by
    simp [handleMessage, h]
  refine ⟨hout, ?_, ?_, ?_⟩
  · intro c hc vec hvec
    rw [hout]
    exact List.mem_flatMap.mpr ⟨vec, hvec, List.mem_map.mpr ⟨c, hc, rfl⟩⟩
  · intro c m hm
    rw [hout] at hm
    obtain ⟨vec, _, hm⟩ := List.mem_flatMap.mp hm
    obtain ⟨c', hc', heq⟩ := List.mem_map.mp hm
    obtain ⟨rfl, -⟩ := Prod.mk.injEq .. ▸ heq
    exact hc'
  · rw [hst]
    exact lookupTiming_setTiming st.timings id _

/-- C1 (witness): the amended broadcast behaviour at a server with two
accepted channels of which only channel 1 subscribed to idX. -/
theorem server_update_broadcast_witness :
    serverUpdateClaim stC1 1 idX (JField.num 5) JField.absent JField.absent 0
      { connections := [1]
        vector := { position := 0, velocity := 0, acceleration := 0, timestamp := 0 } } :=
  server_update_broadcast stC1 1 idX (JField.num 5) JField.absent JField.absent 0
    { connections := [1]
      vector := { position := 0, velocity := 0, acceleration := 0, timestamp := 0 } }
    (by simp [stC1, lookupTiming])

/-- C1 (counterexample): on that server, the update sent by channel 1
produces change messages to channel 2, which never subscribed to idX, and
two copies to each channel — refuting both "only to subscribers" and
"exactly once". -/
theorem server_update_nonsubscriber_counterexample :
    (handleMessage stC1 1 (ClientMsg.update idX (JField.num 5) JField.absent JField.absent) 0).2 =
      [(1, ServerMsg.change idX { position := 5, velocity := 0, acceleration := 0, timestamp := 0 }),
       (2, ServerMsg.change idX { position := 5, velocity := 0, acceleration := 0, timestamp := 0 }),
       (1, ServerMsg.change idX { position := 5, velocity := 0, acceleration := 0, timestamp := 0 }),
       (2, ServerMsg.change idX { position := 5, velocity := 0, acceleration := 0, timestamp := 0 })] ∧
    lookupTiming stC1.timings idX =
      some { connections := [1]
             vector := { position := 0, velocity := 0, acceleration := 0, timestamp := 0 } } ∧
    (2 : Channel) ∉ ([1] : List Channel) := by
  refine ⟨?_, by simp [stC1, lookupTiming], by simp⟩
  norm_num [handleMessage, stC1, lookupTiming, localUpdate, updField, isNull, jsOr0,
    StateVector.compareTo, StateVector.computePosition, StateVector.computeVelocity,
    StateVector.computeAcceleration]

/-- C2 (amended): after the close handler runs, the channel is a member of
no timing object's connection list, but it is still a member of the global
connections array, which is left untouched. -/
theorem server_close_removes_subscriptions (st : ServerState) (ch : Channel) :
    closeClaim st ch := by
  refine ⟨rfl, ?_, rfl⟩
  intro p hp
  simp only [handleClose, List.mem_map] at hp
  obtain ⟨q, _, rfl⟩ := hp
  intro hmem
  simp [List.mem_filter] at hmem

/-- C2 (witness): the close behaviour at the two-channel server. -/
theorem server_close_removes_subscriptions_witness : closeClaim stC2 7 :=
  server_close_removes_subscriptions stC2 7

/-- C2 (counterexample): after channel 7 closes, it is still in the global
connections array, and an update sent by channel 8 still produces a change
message addressed to the closed channel 7. -/
theorem server_close_global_counterexample :
    (handleClose stC2 7).connections = [7, 8] ∧
    (7, ServerMsg.change idX { position := 1, velocity := 0, acceleration := 0, timestamp := 0 }) ∈
      (handleMessage (handleClose stC2 7) 8
        (ClientMsg.update idX (JField.num 1) JField.null JField.null) 0).2 := by
  constructor
  · rfl
  · norm_num [handleMessage, handleClose, stC2, lookupTiming, localUpdate, updField,
      isNull, jsOr0, StateVector.compareTo, StateVector.computePosition,
      StateVector.computeVelocity, StateVector.computeAcceleration]

/-- C4 (amended): a fresh change message received by an open provider whose
pending queue only holds future-dated entries is applied immediately when
its translated local timestamp is not in the future; otherwise it is
inserted into the pending queue, the queue is kept sorted by server
timestamp ascending, and a timer is armed to fire after head_ts - now
milliseconds where head is the earliest entry of the updated queue — which
equals the new message exactly when that message is the earliest pending
entry. -/
theorem change_applied_or_queued (st : ClientState) (v : StateVector) (now : ℚ)
    (hOpen : st.readyState = ReadyState.opened)
    (hFresh : ¬ v.timestamp < st.serverVector.timestamp)
    (hInv : ∀ u ∈ st.pendingChanges, now < localTsOf st.skew st.delta u now) :
    changeClaim st v now := by
  constructor
  · intro hle
    by_cases hlt : localTsOf st.skew st.delta v now < now
    · have h1 : handleChange st v now =
          ((setServerVector st v now).1, none, (setServerVector st v now).2) := by
        simp [handleChange, hOpen, hFresh, hlt]
      rw [h1, setServerVector_fst]
      exact ⟨rfl, rfl⟩
    · have heq : localTsOf st.skew st.delta v now = now := le_antisymm hle (not_lt.mp hlt)
      obtain ⟨hd, tl, hQ⟩ : ∃ hd tl, sortByTs (st.pendingChanges ++ [v]) = hd :: tl := by
        cases hS : sortByTs (st.pendingChanges ++ [v]) with
        | nil =>
            exfalso
            have hp := sortByTs_perm (st.pendingChanges ++ [v])
            rw [hS] at hp
            simpa using hp.symm.eq_nil
        | cons hd tl => exact ⟨hd, tl, rfl⟩
      have hperm : List.Perm (hd :: tl) (st.pendingChanges ++ [v]) :=
        hQ ▸ sortByTs_perm (st.pendingChanges ++ [v])
      have hsorted : List.Sorted tsLE (hd :: tl) :=
        hQ ▸ sortByTs_sorted (st.pendingChanges ++ [v])
      have hv_mem : v ∈ hd :: tl := hperm.mem_iff.mpr (by simp)
      have hhd_mem : hd ∈ st.pendingChanges ++ [v] := hperm.mem_iff.mp (by simp)
      have hdv : hd = v := by
        rcases List.mem_append.mp hhd_mem with hmem | hmem
        · exfalso
          have h2 : now < localTsOf st.skew st.delta hd now := hInv hd hmem
          have h3 : hd.timestamp ≤ v.timestamp := by
            rcases List.mem_cons.mp hv_mem with hvv | hvtl
            · exact le_of_eq (congrArg StateVector.timestamp hvv.symm)
            · exact (List.sorted_cons.mp hsorted).1 v hvtl
          have h4 : localTsOf st.skew st.delta hd now ≤ localTsOf st.skew st.delta v now :=
            (localTsOf_le_iff st.skew st.delta hd v now).mpr h3
          rw [heq] at h4
          exact absurd (lt_of_lt_of_le h2 h4) (lt_irrefl now)
        · simpa using hmem
      subst hdv
      have htl_perm : List.Perm tl st.pendingChanges := by
        have hp2 : List.Perm (hd :: tl) (hd :: st.pendingChanges) :=
          hperm.trans (List.perm_append_singleton hd st.pendingChanges)

        exact hp2.cons_inv
      have htl : ∀ u ∈ tl, now < localTsOf st.skew st.delta u now := fun u hu =>
        hInv u (htl_perm.mem_iff.mp hu)
      have h1 : handleChange st hd now =
          scheduleLoop now { st with pendingChanges := hd :: tl } (hd :: tl) := by
        simp [handleChange, hOpen, hFresh, hlt, scheduleNextPendingChange, hQ]
      rw [h1]
      have hdue := scheduleLoop_head_due now
        { st with pendingChanges := hd :: tl } hd tl
        (by simp [heq]) (by simpa using htl)
      exact ⟨hdue.1, hdue.2⟩
  · intro hgt
    obtain ⟨hd, tl, hQ⟩ : ∃ hd tl, sortByTs (st.pendingChanges ++ [v]) = hd :: tl := by
      cases hS : sortByTs (st.pendingChanges ++ [v]) with
      | nil =>
          exfalso
          have hp := sortByTs_perm (st.pendingChanges ++ [v])
          rw [hS] at hp
          simpa using hp.symm.eq_nil
      | cons hd tl => exact ⟨hd, tl, rfl⟩
    have hperm : List.Perm (hd :: tl) (st.pendingChanges ++ [v]) :=
      hQ ▸ sortByTs_perm (st.pendingChanges ++ [v])
    have hsorted : List.Sorted tsLE (hd :: tl) :=
      hQ ▸ sortByTs_sorted (st.pendingChanges ++ [v])
    have hhd_mem : hd ∈ st.pendingChanges ++ [v] := hperm.mem_iff.mp (by simp)
    have hhd : now < localTsOf st.skew st.delta hd now := by
      rcases List.mem_append.mp hhd_mem with hmem | hmem
      · exact hInv hd hmem
      · have : hd = v := by simpa using hmem
        rwa [this]
    have h1 := handleChange_queued st v now hOpen hFresh (not_lt.mpr (le_of_lt hgt))
      hd tl hQ hhd
    rw [h1]
    refine ⟨hQ.symm, ?_, rfl, rfl, hd, tl, hQ, rfl, ?_⟩
    · exact hQ ▸ hsorted
    · intro u hu
      rw [hQ] at hu
      rcases List.mem_cons.mp hu with huu | hutl
      · exact le_of_eq (congrArg StateVector.timestamp huu.symm)
      · exact (List.sorted_cons.mp hsorted).1 u hutl

/-- C4 (witness): an open provider with an empty queue receiving a change
whose translated timestamp 2000 ms lies 1000 ms in the future. -/
theorem change_applied_or_queued_witness :
    changeClaim stC4W { position := 1, velocity := 0, acceleration := 0, timestamp := 2 } 1000 :=
  change_applied_or_queued stC4W
    { position := 1, velocity := 0, acceleration := 0, timestamp := 2 } 1000
    rfl (by norm_num [stC4W]) (by simp [stC4W])

/-- C4 (counterexample): an open provider already holding a pending change
at server timestamp 2 receives a change at server timestamp 3 (local time
3000 ms, 2000 ms ahead of now = 1000 ms); the armed timer fires after
1000 ms — the delay of the earlier queued entry — not after the 2000 ms
the claim asserts for the received message. -/
theorem change_timer_target_counterexample :
    (handleChange stC4 { position := 0, velocity := 0, acceleration := 0, timestamp := 3 } 1000).2.1 =
      some 1000 ∧
    localTsOf stC4.skew stC4.delta
        { position := 0, velocity := 0, acceleration := 0, timestamp := 3 } 1000 - 1000 = 2000 ∧
    ((1000 : ℚ) ≠ 2000) := by
  have h1 := handleChange_queued stC4
    { position := 0, velocity := 0, acceleration := 0, timestamp := 3 } 1000
    rfl (by norm_num [stC4]) (by norm_num [stC4, localTsOf, getTime])
    { position := 0, velocity := 0, acceleration := 0, timestamp := 2 }
    [{ position := 0, velocity := 0, acceleration := 0, timestamp := 3 }]
    (by norm_num [stC4, sortByTs, List.insertionSort, List.orderedInsert, tsLE])
    (by norm_num [stC4, localTsOf, getTime])
  rw [h1]
  refine ⟨?_, ?_, by norm_num⟩
  · norm_num [stC4, localTsOf, getTime]
  · norm_num [stC4, localTsOf, getTime]

/-- C9: for every StateVector v, evaluating computePosition and
computeVelocity at the vector's own timestamp returns exactly the stored
position and velocity. -/
theorem stateVector_self_evaluation (v : StateVector) :
    v.computePosition v.timestamp = v.position ∧
    v.computeVelocity v.timestamp = v.velocity := by
  constructor <;> simp [StateVector.computePosition, StateVector.computeVelocity]

/-- C10: every sync request, whatever its id and whether or not the id is
known, yields exactly one sync reply on the requesting channel only,
echoing client.sent unchanged, with server.received and server.sent both
equal to the processing time and carrying the configured delta, and the
server state (timing map included) is left unchanged. -/
theorem server_sync_reply (st : ServerState) (ch : Channel) (id : String)
    (clientSent : Option ℚ) (now : ℚ) :
    handleMessage st ch (ClientMsg.sync id clientSent) now =
      (st, [(ch, ServerMsg.sync id clientSent now now st.delta)]) :=
  rfl

/-- C8: evaluation of the source's Interval.covers against the bounds
semantics the claim states, at the interval built from low 0 (exclusive)
and high 10 (inclusive): covers treats the present low bound 0 as absent
because of the falsy check, so -5 is reported covered although it lies
outside the bounds. -/
theorem interval_covers_zero_bound_bug :
    (intervalNew { low := some 0, lowInclude := false
                   high := some 10, highInclude := true }).covers (-5) = true ∧
    coversSpec (intervalNew { low := some 0, lowInclude := false
                              high := some 10, highInclude := true }) (-5) = false := by
  decide

/-- C3 (amended): in LocalTimingProvider.update, reached from the server's
update handler, a field absent from the message is set to 0 by the
state-vector constructor default, while only an explicitly null field keeps
its value extrapolated to now. -/
theorem localUpdate_absent_vs_null (cur : StateVector) (p v a : JField) (now : ℚ) :
    (localUpdate cur JField.absent v a now).1.position = 0 ∧
    (localUpdate cur JField.null v a now).1.position = cur.computePosition now ∧
    (localUpdate cur p JField.absent a now).1.velocity = 0 ∧
    (localUpdate cur p JField.null a now).1.velocity = cur.computeVelocity now ∧
    (localUpdate cur p v JField.absent now).1.acceleration = 0 ∧
    (localUpdate cur p v JField.null now).1.acceleration = cur.acceleration := by
  refine ⟨?_, ?_, ?_, ?_, ?_, ?_⟩ <;>
    simp [localUpdate, updField, isNull, jsOr0, StateVector.computeAcceleration]

/-- C3 (counterexample): on a server holding idY at rest at position 5, an
update with all fields absent stores the zero vector, whereas the same
update with all fields null keeps the extrapolated position 5 — absent is
not treated like null, and the absent field does not keep its current
value. -/
theorem server_update_absent_counterexample :
    (handleMessage stC3 3 (ClientMsg.update idY JField.absent JField.absent JField.absent) 2).1.timings =
      [(idY, { connections := [3]
               vector := { position := 0, velocity := 0, acceleration := 0, timestamp := 2 } })] ∧
    (handleMessage stC3 3 (ClientMsg.update idY JField.null JField.null JField.null) 2).1.timings =
      [(idY, { connections := [3]
               vector := { position := 5, velocity := 0, acceleration := 0, timestamp := 2 } })] ∧
    ((0 : ℚ) ≠ 5) := by
  refine ⟨?_, ?_, by norm_num⟩ <;>
    norm_num [handleMessage, stC3, lookupTiming, setTiming, localUpdate, updField,
      isNull, jsOr0, StateVector.computePosition, StateVector.computeVelocity,
      StateVector.computeAcceleration]

/-- C7: when at least one sync response survived the initialization phase,
the initial-settings computation takes the lowest-round-trip response for
the initial skew, delta and roundtripMin, starts the threshold from the
round trip at index ceil(initialAttempts / 2) - 1 of the sorted responses
(or the last one when fewer survived), raises it when necessary so that it
is at least minRoundtripThreshold and at least 1.30 times roundtripMin,
and opens the clock. -/
theorem clockInit_settings (st : ClockState) (h : st.initialSyncMessages ≠ []) :
    clockInitClaim st := by
  obtain ⟨s, rest, hsort⟩ : ∃ s rest, sortSamples st.initialSyncMessages = s :: rest := by
    cases hS : sortSamples st.initialSyncMessages with
    | nil =>
        exfalso
        have hp : List.Perm (sortSamples st.initialSyncMessages) st.initialSyncMessages :=
          List.perm_insertionSort rtLE st.initialSyncMessages
        rw [hS] at hp
        exact h hp.symm.eq_nil
    | cons s rest => exact ⟨s, rest, rfl⟩
  have hsorted : List.Sorted rtLE (s :: rest) :=
    hsort ▸ List.sorted_insertionSort rtLE st.initialSyncMessages
  have hperm : List.Perm (s :: rest) st.initialSyncMessages :=
    hsort ▸ List.perm_insertionSort rtLE st.initialSyncMessages
  refine ⟨s, rest, hsort, ?_, ?_, ?_, ?_, ?_, ?_, ?_, ?_, ?_, ?_⟩
  · simp [clockInit, hsort]
  · simp [clockInit, hsort]
  · intro u hu
    rcases List.mem_cons.mp (hperm.mem_iff.mpr hu) with huu | hurest
    · rw [huu]
    · exact (List.sorted_cons.mp hsorted).1 u hurest
  · simp [clockInit, hsort]
  · cases hd : s.msg.delta <;> simp [clockInit, hsort, hd]
  · simp only [clockInit, hsort, List.length_cons, Nat.add_sub_cancel]
    split_ifs <;> linarith
  · simp only [clockInit, hsort, List.length_cons, Nat.add_sub_cancel]
    split_ifs <;> linarith [Int.le_ceil (s.roundtrip * (13/10))]
  · simp only [clockInit, hsort, List.length_cons, Nat.add_sub_cancel]
    split_ifs <;> linarith [Int.le_ceil (s.roundtrip * (13/10))]
  · intro hmax
    have h1 : ¬ ((s :: rest).getD (min ((initialAttempts + 1) / 2 - 1) rest.length) s).roundtrip <
        s.roundtrip * (13/10) :=
      not_lt.mpr (le_trans (le_max_right minRoundtripThreshold (s.roundtrip * (13/10))) hmax)
    have h2 : ¬ ((s :: rest).getD (min ((initialAttempts + 1) / 2 - 1) rest.length) s).roundtrip <
        minRoundtripThreshold :=
      not_lt.mpr (le_trans (le_max_left minRoundtripThreshold (s.roundtrip * (13/10))) hmax)
    simp only [clockInit, hsort, List.length_cons, Nat.add_sub_cancel]
    simp only [if_neg h1, if_neg h2]
  · simp [clockInit, hsort]

/-- C7 (witness): a clock that kept two responses, with round trips 10 and
20 ms; the lowest-round-trip response (skew 100 ms) wins, the threshold is
the last response's round trip 20 ms, already above both bounds. -/
theorem clockInit_settings_witness : clockInitClaim stC7W :=
  clockInit_settings stC7W (by simp [stC7W])

/-- C5: a change message whose server timestamp is strictly smaller than
the stored server vector's timestamp is silently dropped by an open
provider: the state is unchanged, no timer is armed and no change event is
dispatched. -/
theorem change_stale_dropped (st : ClientState) (v : StateVector) (now : ℚ)
    (hOpen : st.readyState = ReadyState.opened)
    (hStale : v.timestamp < st.serverVector.timestamp) :
    handleChange st v now = (st, none, []) := by
  simp [handleChange, hOpen, hStale]

/-- C5 witness: the stale check at server timestamp 99/10 against stored
timestamp 10. -/
theorem change_stale_dropped_witness :
    handleChange stC5 { position := 1, velocity := 1, acceleration := 0, timestamp := 99/10 } 0 =
      (stC5, none, []) :=
  change_stale_dropped stC5
    { position := 1, velocity := 1, acceleration := 0, timestamp := 99/10 } 0
    (by decide) (by norm_num [stC5])

/-- C6: update on a SocketTimingProvider whose readyState is not open
returns a rejected future carrying the not-open reason and sends nothing on
the channel. -/
theorem socketUpdate_notOpen (rs : ReadyState) (url : String) (p v a : JField)
    (h : rs ≠ ReadyState.opened) :
    socketUpdate rs url p v a = (Except.error UpdateReason.notOpen, []) := by
  simp [socketUpdate, h]

/-- C6 witness: update while still connecting. -/
theorem socketUpdate_notOpen_witness :
    socketUpdate ReadyState.connecting urlW (JField.num 1) JField.null JField.null =
      (Except.error UpdateReason.notOpen, []) :=
  socketUpdate_notOpen ReadyState.connecting urlW (JField.num 1) JField.null JField.null
    (by decide)

end Timing
